import Mathlib

/-!
Verification development for `src/feature_extraction.py` of the
CommonLit_Readability repository.

The Python module computes per-paragraph readability statistics.  We give a
shallow embedding of its functions over `List Char` / `String`:

* `preprocessing`       — lines 213-236 (lowercase, strip digits, hyphen to
  space, strip non-word non-space characters, collapse whitespace runs);
* `syllableLoop` / `word_syllables` — the right-to-left vowel scan inside
  `count_syllables` (lines 84-98), shared verbatim by `count_monosyllables`
  and `count_polysyllables`;
* `count_syllables`, `count_monosyllables`, `count_polysyllables`,
  `count_long_words`, `count_dale_chall` — lines 71-209;
* `num_comma`, `num_sentences`, `num_words`, `num_letters` — the column
  computations of `sentence_statistics` (lines 19-31);
* `sentence_statistics_row` — one output record of `sentence_statistics`
  (lines 16-67), with the floating-point readability scores modelled over
  `Option ℚ` where `none` stands for an undefined (NaN/Inf) value: a ratio
  with zero denominator is `none` and every arithmetic operation is strict
  in `none`, matching IEEE propagation of non-finite results through the
  formulas.

Python regex character classes are modelled on the alphabet this program
actually distinguishes: `\w` as ASCII alphanumerics, underscore and the
three vowels `ä ö ü` named by the heuristic, `\s` as the six ASCII
whitespace characters, `\d` as ASCII digits.
-/

set_option maxRecDepth 8192

/-- The vowel set `"aeiouyäöü"` tested by `current_character in "aeiouyäöü"`
(lines 89 and 94 of the source). -/
def isVowel (c : Char) : Bool :=
  c == 'a' || c == 'e' || c == 'i' || c == 'o' || c == 'u' || c == 'y' ||
  c == 'ä' || c == 'ö' || c == 'ü'

/-- Python regex class `\s`: the whitespace characters recognised by
`str.split()` and `re.sub(r"\s+", " ")`. -/
def isSpaceChar (c : Char) : Bool :=
  c == ' ' || c == '\t' || c == '\n' || c == '\r' || c == '\x0b' || c == '\x0c'

/-- Python regex class `\w` (word-constituent characters), restricted to the
alphabet the program distinguishes: ASCII alphanumerics, underscore, and the
three non-ASCII vowels the heuristic names. -/
def isWordChar (c : Char) : Bool :=
  c.isAlphanum || c == '_' || c == 'ä' || c == 'ö' || c == 'ü'

/-- Python regex class `\d` (ASCII digits). -/
def isDigitChar (c : Char) : Bool :=
  c.isDigit

/-- Accumulator pass of Python `str.split()`: split on runs of whitespace,
dropping empty pieces.  `acc` holds the current token reversed. -/
def splitWsAux (acc : List Char) : List Char → List (List Char)
  | [] => if acc.isEmpty then [] else [acc.reverse]
  | c :: cs =>
    if isSpaceChar c then
      if acc.isEmpty then splitWsAux [] cs
      else acc.reverse :: splitWsAux [] cs
    else splitWsAux (c :: acc) cs

/-- Python `text.split()` (no separator argument): the maximal
whitespace-delimited tokens of the character list. -/
def splitWs (l : List Char) : List (List Char) :=
  splitWsAux [] l

/-- `re.sub(r"\d", "", x)` — line 227: delete digits. -/
def removeDigits (l : List Char) : List Char :=
  l.filter (fun c => !isDigitChar c)

/-- `re.sub(r"\-", " ", x)` — line 230: replace each hyphen by a space. -/
def hyphensToSpaces (l : List Char) : List Char :=
  l.map (fun c => if c == '-' then ' ' else c)

/-- `re.sub(r"[^\w\s]", "", x)` — line 231: delete every character that is
neither a word character nor whitespace. -/
def removeNonWord (l : List Char) : List Char :=
  l.filter (fun c => isWordChar c || isSpaceChar c)

/-- Accumulator pass of `re.sub(r"\s+", " ", x)` — line 234: each maximal
whitespace run becomes a single space.  `prevSpace` records whether the
previous character belonged to a whitespace run. -/
def collapseWsAux (prevSpace : Bool) : List Char → List Char
  | [] => []
  | c :: cs =>
    if isSpaceChar c then
      if prevSpace then collapseWsAux true cs
      else ' ' :: collapseWsAux true cs
    else c :: collapseWsAux false cs

/-- `re.sub(r"\s+", " ", x)` — line 234. -/
def collapseWs (l : List Char) : List Char :=
  collapseWsAux false l

/-- `preprocessing` — lines 213-236: lowercase, remove digits, turn hyphens
into spaces, remove remaining punctuation, collapse whitespace runs. -/
def preprocessing (s : String) : String :=
  String.mk (collapseWs (removeNonWord (hyphensToSpaces (removeDigits (s.toList.map Char.toLower)))))

/-- The `while current_pos >= 0` loop of `count_syllables` (lines 86-96),
reproduced verbatim inside `count_monosyllables` and `count_polysyllables`.
The first argument of the recursion is `current_pos + 1` (so `0` means the
cursor has run off the left end); the second is the running `word_syllables`.
With fuel `1` the cursor sits at index 0: whether `w[0]` is a vowel (break,
since the decremented cursor is `-1 <= 0`) or a consonant (loop exits), the
count is returned unchanged, which the embedding folds into one equation. -/
def syllableLoop (w : List Char) : Nat → Nat → Nat
  | 0, syll => syll
  | 1, syll => syll
  | p + 2, syll =>
    if isVowel (w.getD (p + 1) ' ') then
      if p = 0 then syll
      else syllableLoop w p (if isVowel (w.getD p ' ') then syll else syll + 1)
    else syllableLoop w (p + 1) syll

/-- `cc_pattern.match(word)` for `cc_pattern = re.compile("[^aeiouyäöü]{2,}")`
(line 80): the regex matches at the start of the word exactly when the first
two characters are both non-vowels. -/
def hasLeadingCluster (w : List Char) : Bool :=
  match w with
  | c1 :: c2 :: _ => !isVowel c1 && !isVowel c2
  | _ => false

/-- The per-word syllable count of lines 84-98: run the scan loop starting
from `word_syllables = 1`, then apply the leading-consonant-cluster
decrement `if cc_pattern.match(word) and len(word) > 2`. -/
def word_syllables (w : List Char) : Nat :=
  let n := syllableLoop w w.length 1
  if hasLeadingCluster w && decide (2 < w.length) then n - 1 else n

/-- `count_syllables` — lines 71-100: sum of per-word syllable counts over
the whitespace tokens. -/
def count_syllables (text : String) : Nat :=
  ((splitWs text.toList).map word_syllables).sum

/-- `count_monosyllables` — lines 103-133: number of tokens whose per-word
syllable count equals 1. -/
def count_monosyllables (text : String) : Nat :=
  (splitWs text.toList).countP (fun w => word_syllables w == 1)

/-- `count_polysyllables` — lines 136-167: number of tokens whose per-word
syllable count is at least `threshold`. -/
def count_polysyllables (text : String) (threshold : Nat) : Nat :=
  (splitWs text.toList).countP (fun w => decide (threshold ≤ word_syllables w))

/-- `count_long_words` — lines 170-185: number of tokens with at least
`threshold` characters. -/
def count_long_words (text : String) (threshold : Nat) : Nat :=
  (splitWs text.toList).countP (fun w => decide (threshold ≤ w.length))

/-- `count_dale_chall` — lines 188-209, with the loaded wordlist made an
explicit parameter: number of tokens absent from the wordlist. -/
def count_dale_chall (wordlist : List String) (text : String) : Nat :=
  (splitWs text.toList).countP (fun w => !wordlist.contains (String.mk w))

/-- `df_text.str.count(",")` — line 19: `,` is a regex matching a literal
comma. -/
def num_comma (s : String) : Nat :=
  s.toList.countP (fun c => c == ',')

/-- `df_text.str.count(".") + df_text.str.count("\?") + df_text.str.count("!")`
— line 22.  `str.count` interprets its pattern as a regular expression; the
unescaped `.` matches every character except a newline, so the first summand
counts all non-newline characters of the raw text (while `\?` and `!` count
literal question and exclamation marks). -/
def num_sentences (s : String) : Nat :=
  s.toList.countP (fun c => c != '\n') +
    s.toList.countP (fun c => c == '?') + s.toList.countP (fun c => c == '!')

/-- The sentence-terminator count the spec describes for line 22: literal
occurrences of the three characters period, question mark, exclamation
mark.  Stated from the spec's words for comparison with `num_sentences`. -/
def num_terminators (s : String) : Nat :=
  s.toList.countP (fun c => c == '.' || c == '?' || c == '!')

/-- `df_text.str.split().str.len()` — line 28: the token count of the
(already preprocessed) text. -/
def num_words (s : String) : Nat :=
  (splitWs s.toList).length

/-- `df_text.str.count(r"\w")` — line 31: word-constituent characters of the
(already preprocessed) text. -/
def num_letters (s : String) : Nat :=
  s.toList.countP isWordChar

/-- The test paragraph from the module's `__main__` block (line 240), also
the worked example of the spec. -/
def example_input : String :=
  "This is    test-sentence number 1 with a comma ,."

/-- Floating-point values of the score columns, modelled as `Option ℚ`:
`none` stands for a non-finite value (NaN or infinity).  Division by zero
produces `none` and every operation propagates `none`, matching how the
non-finite values arising from the zero-denominator ratios propagate
through the formulas of lines 52-65. -/
def fadd : Option ℚ → Option ℚ → Option ℚ
  | some a, some b => some (a + b)
  | _, _ => none

/-- Subtraction on the `Option ℚ` float model, strict in `none`. -/
def fsub : Option ℚ → Option ℚ → Option ℚ
  | some a, some b => some (a - b)
  | _, _ => none

/-- Multiplication on the `Option ℚ` float model, strict in `none`. -/
def fmul : Option ℚ → Option ℚ → Option ℚ
  | some a, some b => some (a * b)
  | _, _ => none

/-- Division on the `Option ℚ` float model: a zero denominator gives the
undefined value `none` (NaN for 0/0, infinity otherwise). -/
def fdiv : Option ℚ → Option ℚ → Option ℚ
  | some a, some b => if b = 0 then none else some (a / b)
  | _, _ => none

/-- Comparison `x > b` on the float model: a NaN comparison is false, which
is how the boolean mask of line 65 treats an undefined ratio. -/
def fgt : Option ℚ → ℚ → Bool
  | some a, b => decide (b < a)
  | none, _ => false

/-- Line 52: `206.835 - 1.015*(num_words/num_sentences) - 84.6*(num_syllables/num_words)`. -/
def flesch_reading_ease_score (nw ns syl : Nat) : Option ℚ :=
  fsub (fsub (some 206.835) (fmul (some 1.015) (fdiv (some (nw : ℚ)) (some (ns : ℚ)))))
    (fmul (some 84.6) (fdiv (some (syl : ℚ)) (some (nw : ℚ))))

/-- Line 55: `0.39*(num_words/num_sentences) + 11.8*(num_syllables/num_words) - 15.59`. -/
def flesch_grade_level_score (nw ns syl : Nat) : Option ℚ :=
  fsub (fadd (fmul (some 0.39) (fdiv (some (nw : ℚ)) (some (ns : ℚ))))
      (fmul (some 11.8) (fdiv (some (syl : ℚ)) (some (nw : ℚ)))))
    (some 15.59)

/-- Line 58: `1.599*(num_monosyllables*100/num_words) - 1.015*(num_words/num_sentences) - 31.517`. -/
def flesch_modified_score (nw ns mono : Nat) : Option ℚ :=
  fsub (fsub (fmul (some 1.599) (fdiv (some ((mono : ℚ) * 100)) (some (nw : ℚ))))
      (fmul (some 1.015) (fdiv (some (nw : ℚ)) (some (ns : ℚ)))))
    (some 31.517)

/-- Lines 64-65: the Dale-Chall score with the conditional `+ 3.6365`
applied when `num_not_dale_chall / num_words > 0.05` (an undefined ratio
fails the comparison, so no adjustment is applied). -/
def dale_chall_score_val (nd nw ns : Nat) : Option ℚ :=
  let base := fadd (fmul (some 0.1579) (fdiv (some ((nd : ℚ) * 100)) (some (nw : ℚ))))
    (fmul (some 0.0496) (fdiv (some (nw : ℚ)) (some (ns : ℚ))))
  if fgt (fdiv (some (nd : ℚ)) (some (nw : ℚ))) 0.05 then fadd base (some 3.6365) else base

/-- One row of the statistics dataframe built by `sentence_statistics`
(lines 16-67): the integer counter columns and the four derived score
columns. -/
structure ParagraphStats where
  num_comma : Nat
  num_sentences : Nat
  num_words : Nat
  num_letters : Nat
  num_syllables : Nat
  num_monosyllables : Nat
  num_polysyllables_2 : Nat
  num_polysyllables_3 : Nat
  num_polysyllables_5 : Nat
  num_long_3 : Nat
  num_long_5 : Nat
  num_long_8 : Nat
  num_long_10 : Nat
  num_long_15 : Nat
  num_not_dale_chall : Nat
  flesch_reading_ease : Option ℚ
  flesch_grade_level : Option ℚ
  flesch_modified : Option ℚ
  dale_chall_score : Option ℚ

/-- `sentence_statistics` restricted to a single paragraph (one dataframe
row), lines 16-67: comma and sentence counts on the raw text, every other
statistic on the preprocessed text, scores from the counters.  The loaded
Dale-Chall wordlist is an explicit parameter.  The function is total: an
empty or punctuation-only paragraph yields zero counters and undefined
(`none`) scores rather than an error. -/
def sentence_statistics_row (wordlist : List String) (raw : String) : ParagraphStats :=
  let norm := preprocessing raw
  let nw := num_words norm
  let ns := num_sentences raw
  let syl := count_syllables norm
  let mono := count_monosyllables norm
  let nd := count_dale_chall wordlist norm
  { num_comma := num_comma raw
    num_sentences := ns
    num_words := nw
    num_letters := num_letters norm
    num_syllables := syl
    num_monosyllables := mono
    num_polysyllables_2 := count_polysyllables norm 2
    num_polysyllables_3 := count_polysyllables norm 3
    num_polysyllables_5 := count_polysyllables norm 5
    num_long_3 := count_long_words norm 3
    num_long_5 := count_long_words norm 5
    num_long_8 := count_long_words norm 8
    num_long_10 := count_long_words norm 10
    num_long_15 := count_long_words norm 15
    num_not_dale_chall := nd
    flesch_reading_ease := flesch_reading_ease_score nw ns syl
    flesch_grade_level := flesch_grade_level_score nw ns syl
    flesch_modified := flesch_modified_score nw ns mono
    dale_chall_score := dale_chall_score_val nd nw ns }

/-- One invocation of `count_dale_chall` with the wordlist resource made
explicit.  The source function opens and reads the wordlist file in its own
body (lines 198-200), so every call performs exactly one load attempt; the
first component records that load event and the second is the count, which
is unavailable (`none`) when the resource is missing or unreadable. -/
def count_dale_chall_call (res : Option (List String)) (text : String) : Nat × Option Nat :=
  match res with
  | none => (1, none)
  | some wl => (1, some (count_dale_chall wl text))

/-- Total number of wordlist load events performed while filling the
`num_not_dale_chall` column (line 61 applies `count_dale_chall` to every
row of the preprocessed paragraph column). -/
def wordlist_load_events (res : Option (List String)) (rows : List String) : Nat :=
  (rows.map (fun r => (count_dale_chall_call res (preprocessing r)).1)).sum

/-- The right-to-left scan exactly as the claim words it, on the reversed
word: starting extra-count 0; a vowel inspects the immediately preceding
character whenever one exists and adds 1 when it is a consonant, then the
scan advances past both characters; a consonant advances one position. -/
def claim_scan : List Char → Nat
  | [] => 0
  | [_] => 0
  | c :: d :: rest =>
    if isVowel c then (if isVowel d then 0 else 1) + claim_scan rest
    else claim_scan (d :: rest)

/-- The claim's full per-word procedure: count starts at 1, plus the
right-to-left scan increments, then the leading-consonant-cluster decrement
for words of length greater than 2. -/
def claim_procedure (w : String) : Nat :=
  let l := w.toList
  let n := 1 + claim_scan l.reverse
  if hasLeadingCluster l && decide (2 < l.length) then n - 1 else n

/-- The amended scan: identical to `claim_scan` except that a vowel found
at position 0 or 1 of the word freezes the count at once — the character at
position 0 is not inspected (this is the `if current_pos <= 0: break` of
line 90). On the reversed word this is the additional `rest = []` guard. -/
def claim_scan_amended : List Char → Nat
  | [] => 0
  | [_] => 0
  | c :: d :: rest =>
    if isVowel c then
      if rest = [] then 0
      else (if isVowel d then 0 else 1) + claim_scan_amended rest
    else claim_scan_amended (d :: rest)

/-- The amended per-word procedure built on the amended scan. -/
def claim_procedure_amended (w : String) : Nat :=
  let l := w.toList
  let n := 1 + claim_scan_amended l.reverse
  if hasLeadingCluster l && decide (2 < l.length) then n - 1 else n

/-- `fadd` is strict in an undefined left operand. -/
lemma fadd_none_left (b : Option ℚ) : fadd none b = none := by
  cases b <;> rfl

/-- `fadd` is strict in an undefined right operand. -/
lemma fadd_none_right (a : Option ℚ) : fadd a none = none := by
  cases a <;> rfl

/-- `fsub` is strict in an undefined left operand. -/
lemma fsub_none_left (b : Option ℚ) : fsub none b = none := by
  cases b <;> rfl

/-- `fsub` is strict in an undefined right operand. -/
lemma fsub_none_right (a : Option ℚ) : fsub a none = none := by
  cases a <;> rfl

/-- `fmul` is strict in an undefined left operand. -/
lemma fmul_none_left (b : Option ℚ) : fmul none b = none := by
  cases b <;> rfl

/-- `fmul` is strict in an undefined right operand. -/
lemma fmul_none_right (a : Option ℚ) : fmul a none = none := by
  cases a <;> rfl

/-- Division by the exact value zero is undefined in the float model. -/
lemma fdiv_denom_zero (a : Option ℚ) : fdiv a (some 0) = none := by
  cases a <;> simp [fdiv]

/-- A comparison against an undefined value is false (NaN semantics). -/
lemma fgt_none (b : ℚ) : fgt none b = false := rfl

/-- `countP` is monotone under pointwise implication of predicates. -/
lemma countP_imp_le {α : Type} (p q : α → Bool) (l : List α)
    (h : ∀ a, p a = true → q a = true) : l.countP p ≤ l.countP q := by
  induction l with
  | nil => simp
  | cons a t ih =>
    simp only [List.countP_cons]
    by_cases hp : p a = true
    · simp [hp, h a hp]
      omega
    · simp [hp]
      split <;> omega

/-- Two pointwise exclusive predicates count at most `length` in total. -/
lemma countP_add_countP_le_length {α : Type} (p q : α → Bool) (l : List α)
    (h : ∀ a, ¬(p a = true ∧ q a = true)) :
    l.countP p + l.countP q ≤ l.length := by
  induction l with
  | nil => simp
  | cons a t ih =>
    simp only [List.countP_cons, List.length_cons]
    rcases Bool.eq_false_or_eq_true (p a) with hp | hp <;>
      rcases Bool.eq_false_or_eq_true (q a) with hq | hq
    · exact absurd ⟨hp, hq⟩ (h a)
    · simp [hp, hq]; omega
    · simp [hp, hq]; omega
    · simp [hp, hq]; omega

/-- `countP` only depends on the predicate's values on the list members. -/
lemma countP_congr_mem {α : Type} (p q : α → Bool) (l : List α)
    (h : ∀ a ∈ l, p a = q a) : l.countP p = l.countP q := by
  induction l with
  | nil => rfl
  | cons a t ih =>
    simp only [List.countP_cons, h a (List.mem_cons_self a t),
      ih fun x hx => h x (List.mem_cons_of_mem _ hx)]

/-- The token lengths produced by `splitWsAux` sum to the pending
accumulator plus the number of non-whitespace characters left. -/
lemma splitWsAux_len_sum (l : List Char) : ∀ acc : List Char,
    ((splitWsAux acc l).map List.length).sum
      = acc.length + l.countP (fun c => !isSpaceChar c) := by
  induction l with
  | nil =>
    intro acc
    by_cases h : acc.isEmpty
    · rw [List.isEmpty_iff] at h
      simp [splitWsAux, h]
    · simp [splitWsAux, h]
  | cons c cs ih =>
    intro acc
    simp only [splitWsAux, List.countP_cons]
    by_cases hc : isSpaceChar c = true
    · by_cases ha : acc.isEmpty
      · rw [List.isEmpty_iff] at ha
        simp [hc, ha, ih []]
      · simp [hc, ha, ih []]
    · simp [hc, ih (c :: acc)]
      omega

/-- Splitting collects exactly the non-whitespace characters: the token
lengths sum to the count of non-whitespace characters. -/
lemma splitWs_len_sum (l : List Char) :
    ((splitWs l).map List.length).sum = l.countP (fun c => !isSpaceChar c) := by
  simpa using splitWsAux_len_sum l []

/-- On whitespace-free input, `splitWsAux` produces the single token formed
by the accumulator and the rest. -/
lemma splitWsAux_no_space (l : List Char) : ∀ acc : List Char,
    (∀ c ∈ l, isSpaceChar c = false) → (acc ≠ [] ∨ l ≠ []) →
    splitWsAux acc l = [acc.reverse ++ l] := by
  induction l with
  | nil =>
    intro acc _ hne
    have ha : acc ≠ [] := hne.resolve_right (by simp)
    have : acc.isEmpty = false := by
      rcases acc with _ | ⟨a, t⟩
      · exact absurd rfl ha
      · rfl
    simp [splitWsAux, this]
  | cons c cs ih =>
    intro acc h _
    have hc : isSpaceChar c = false := h c (List.mem_cons_self c cs)
    simp only [splitWsAux, hc]
    rw [ih (c :: acc) (fun x hx => h x (List.mem_cons_of_mem _ hx)) (Or.inl (by simp))]
    simp

/-- Python `split()` of a non-empty whitespace-free word is that word. -/
lemma splitWs_single (l : List Char) (h : ∀ c ∈ l, isSpaceChar c = false)
    (hne : l ≠ []) : splitWs l = [l] := by
  simpa using splitWsAux_no_space l [] h (Or.inr hne)

/-- Every character emitted by the whitespace-collapsing pass is either a
space or a non-whitespace character of the input. -/
lemma mem_collapseWsAux (c : Char) : ∀ (l : List Char) (b : Bool),
    c ∈ collapseWsAux b l → c = ' ' ∨ (c ∈ l ∧ isSpaceChar c = false) := by
  intro l
  induction l with
  | nil => intro b h; simp [collapseWsAux] at h
  | cons d t ih =>
    intro b h
    simp only [collapseWsAux] at h
    by_cases hd : isSpaceChar d = true
    · simp only [hd, if_true] at h
      by_cases hb : b = true
      · simp only [hb, if_true] at h
        rcases ih true h with h1 | ⟨h2, h3⟩
        · exact Or.inl h1
        · exact Or.inr ⟨List.mem_cons_of_mem _ h2, h3⟩
      · rw [Bool.not_eq_true] at hb
        simp only [hb] at h
        rcases List.mem_cons.mp h with h1 | h1
        · exact Or.inl h1
        · rcases ih true h1 with h2 | ⟨h3, h4⟩
          · exact Or.inl h2
          · exact Or.inr ⟨List.mem_cons_of_mem _ h3, h4⟩
    · rw [Bool.not_eq_true] at hd
      simp only [hd, Bool.false_eq_true, if_false] at h
      rcases List.mem_cons.mp h with h1 | h1
      · subst h1; exact Or.inr ⟨List.mem_cons_self _ _, hd⟩
      · rcases ih false h1 with h2 | ⟨h3, h4⟩
        · exact Or.inl h2
        · exact Or.inr ⟨List.mem_cons_of_mem _ h3, h4⟩

/-- Whitespace characters are not word characters. -/
lemma space_not_word (c : Char) (h : isSpaceChar c = true) : isWordChar c = false := by
  simp only [isSpaceChar, Bool.or_eq_true, beq_iff_eq] at h
  rcases h with (((((h | h) | h) | h) | h) | h) <;> subst h <;> decide

/-- Every character of a preprocessed string is a word character or a
space: normalization removes everything else. -/
lemma preprocessing_chars (s : String) (c : Char)
    (h : c ∈ (preprocessing s).toList) : isWordChar c = true ∨ c = ' ' := by
  have h' : c ∈ collapseWsAux false
      (removeNonWord (hyphensToSpaces (removeDigits (s.toList.map Char.toLower)))) := h
  rcases mem_collapseWsAux c _ false h' with h1 | ⟨h2, h3⟩
  · exact Or.inr h1
  · have := (List.mem_filter.mp h2).2
    rw [Bool.or_eq_true] at this
    rcases this with hw | hs
    · exact Or.inl hw
    · rw [hs] at h3
      exact absurd h3 (by simp)

/-- Reading at an in-bounds index with a default yields the element. -/
lemma getD_of_lt (w : List Char) (n : Nat) (h : n < w.length) : w.getD n ' ' = w[n] := by
  simp [List.getD_eq_getElem?_getD, List.getElem?_eq_getElem h]

/-- Reversing one more taken element conses it in front. -/
lemma reverse_take_succ (w : List Char) (n : Nat) (h : n < w.length) :
    (w.take (n + 1)).reverse = w[n] :: (w.take n).reverse := by
  rw [List.take_succ, List.getElem?_eq_getElem h]
  simp

/-- The scan loop of the source equals the amended right-to-left scan on
the reversed prefix it still has to visit: with fuel `f` (cursor at index
`f - 1`) it adds to the running count exactly the increments of
`claim_scan_amended` on the reversed first `f` characters. -/
theorem syllableLoop_eq_scan (w : List Char) :
    ∀ f, f ≤ w.length → ∀ s,
      syllableLoop w f s = s + claim_scan_amended ((w.take f).reverse) := by
  intro f
  induction f using Nat.strong_induction_on with
  | _ f ih =>
    match f with
    | 0 =>
      intro _ s
      simp [syllableLoop, claim_scan_amended]
    | 1 =>
      intro h s
      rcases w with _ | ⟨a, t⟩
      · simp at h
      · simp [syllableLoop, claim_scan_amended]
    | p + 2 =>
      intro h s
      have h1 : p + 1 < w.length := by omega
      have h0 : p < w.length := by omega
      have e2 : (w.take (p + 2)).reverse = w[p + 1] :: (w.take (p + 1)).reverse :=
        reverse_take_succ w (p + 1) h1
      have e1 : (w.take (p + 1)).reverse = w[p] :: (w.take p).reverse :=
        reverse_take_succ w p h0
      simp only [syllableLoop, getD_of_lt w (p + 1) h1, getD_of_lt w p h0]
      by_cases hv : isVowel w[p + 1] = true
      · by_cases hp : p = 0
        · subst hp
          simp [hv, e2, e1, claim_scan_amended]
        · rw [if_pos hv, if_neg hp, ih p (by omega) (Nat.le_of_lt h0)]
          rw [e2, e1]
          have hne : (w.take p).reverse ≠ [] := by
            intro hnil
            have hlen := congrArg List.length hnil
            simp [Nat.min_eq_left (Nat.le_of_lt h0)] at hlen
            exact hp hlen
          simp only [claim_scan_amended, hv, if_true, if_neg hne]
          by_cases hd : isVowel w[p] = true
          · simp [hd]
          · simp [hd]
            omega
      · rw [Bool.not_eq_true] at hv
        rw [if_neg (by simp [hv]), ih (p + 1) (by omega) (Nat.le_of_lt h1)]
        rw [e2, e1]
        simp [claim_scan_amended, hv]

/-- The per-word count of the source equals the amended claim procedure:
one base syllable plus the amended scan of the reversed word, then the
leading-cluster decrement. -/
lemma word_syllables_eq_claim_amended (w : List Char) :
    word_syllables w =
      (if hasLeadingCluster w && decide (2 < w.length) then
        1 + claim_scan_amended w.reverse - 1
      else 1 + claim_scan_amended w.reverse) := by
  simp only [word_syllables]
  rw [syllableLoop_eq_scan w w.length le_rfl 1, List.take_length]

/-- One load event is performed by every `count_dale_chall` invocation,
present or missing resource alike. -/
lemma count_dale_chall_call_one_load (res : Option (List String)) (t : String) :
    (count_dale_chall_call res t).1 = 1 := by
  cases res <;> rfl

/-- C1: the claim states that `num_sentences` counts the literal characters
`.`, `?` and `!` of the raw paragraph, hence reports 1 for the example
input.  Line 22 instead passes the unescaped regex `.` to `str.count`,
which matches every non-newline character: on the 49-character example
input the code reports 49 while the literal terminator count is 1. -/
theorem c1_num_sentences_counts_every_char :
    num_sentences example_input = 49 ∧ num_terminators example_input = 1 ∧
      num_sentences example_input ≠ num_terminators example_input := by
  decide

/-- C2 counterexample: for the normalized paragraph `"bcd"` (a fixed point
of `preprocessing`) the leading-cluster decrement drives the word's
syllable count to 0, so the word is counted neither as a monosyllable nor
as a polysyllable with threshold 2, and the claimed partition equality
fails: the two counters sum to 0 while `num_words` is 1. -/
theorem c2_counterexample :
    preprocessing "bcd" = "bcd" ∧
      count_monosyllables "bcd" + count_polysyllables "bcd" 2 = 0 ∧
      num_words "bcd" = 1 ∧
      count_monosyllables "bcd" + count_polysyllables "bcd" 2 ≠ num_words "bcd" := by
  decide

/-- C2 amended: the monosyllable and threshold-2 polysyllable counters
never double-count a token, so their sum is at most `num_words`; equality
can fail (only) on words whose syllable count is 0. -/
theorem c2_amended_mono_poly_le (p : String) :
    count_monosyllables p + count_polysyllables p 2 ≤ num_words p := by
  unfold count_monosyllables count_polysyllables num_words
  apply countP_add_countP_le_length
  intro a ha
  rcases ha with ⟨h1, h2⟩
  have e1 : word_syllables a = 1 := by simpa using h1
  have e2 : 2 ≤ word_syllables a := of_decide_eq_true h2
  omega

/-- C3 counterexample: on the word `"ba"` the claim's procedure inspects
the consonant `b` preceding the final vowel and returns 2, but the source
breaks out of the loop as soon as the vowel is found at position 1 (line
90) and returns 1. -/
theorem c3_counterexample :
    claim_procedure "ba" = 2 ∧ count_syllables "ba" = 1 ∧
      count_syllables "ba" ≠ claim_procedure "ba" := by
  decide

/-- C3 amended: for every non-empty whitespace-free word, `count_syllables`
equals the claim's right-to-left procedure amended with the freeze rule of
line 90: when the vowel is found at position 0 or 1 the scan stops at once
without inspecting the character at position 0. -/
theorem c3_amended_scan_equivalence (w : String) (h1 : w.toList ≠ [])
    (h2 : ∀ c ∈ w.toList, isSpaceChar c = false) :
    count_syllables w = claim_procedure_amended w := by
  unfold count_syllables
  rw [splitWs_single w.toList h2 h1]
  simp only [List.map_cons, List.map_nil, List.sum_cons, List.sum_nil, Nat.add_zero]
  rw [word_syllables_eq_claim_amended]
  simp [claim_procedure_amended]

/-- Witness for the amended C3 theorem at the concrete word `"ba"`. -/
theorem c3_amended_scan_equivalence_witness :
    "ba".toList ≠ [] ∧ count_syllables "ba" = claim_procedure_amended "ba" :=
  ⟨by decide, c3_amended_scan_equivalence "ba" (by decide) (by decide)⟩

/-- C4 counterexample: processing two paragraphs performs two wordlist load
events, not the single load before any paragraph that the claim states —
`count_dale_chall` opens and reads the wordlist inside its own body
(lines 198-200), once per row of line 61. -/
theorem c4_counterexample :
    wordlist_load_events (some []) ["a", "b"] = 2 ∧
      wordlist_load_events (some []) ["a", "b"] ≠ 1 := by
  decide

/-- C4 amended: the wordlist is loaded once per paragraph, inside each
`count_dale_chall` call, so the number of load events equals the number of
paragraphs; consequently a missing wordlist resource surfaces in each
paragraph's own `num_not_dale_chall` computation (modelled as `none`),
during per-paragraph processing rather than at initialization. -/
theorem c4_amended_load_per_paragraph :
    (∀ (res : Option (List String)) (rows : List String),
        wordlist_load_events res rows = rows.length) ∧
      ∀ t : String, (count_dale_chall_call none t).2 = none := by
  constructor
  · intro res rows
    induction rows with
    | nil => rfl
    | cons r rs ih =>
      simp only [wordlist_load_events, List.map_cons, List.sum_cons,
        List.length_cons, count_dale_chall_call_one_load] at ih ⊢
      omega
  · intro t
    rfl

/-- C5: a paragraph that is empty after normalization (zero tokens) yields
`num_words = 0`, every per-word counter 0, and all four ratio-based scores
undefined (`none`, the model of NaN/Inf); the row is still produced — the
pipeline is a total function and raises no error on such input. -/
theorem c5_empty_paragraph (wordlist : List String) (raw : String)
    (h : num_words (preprocessing raw) = 0) :
    (sentence_statistics_row wordlist raw).num_words = 0 ∧
      (sentence_statistics_row wordlist raw).num_syllables = 0 ∧
      (sentence_statistics_row wordlist raw).num_monosyllables = 0 ∧
      (sentence_statistics_row wordlist raw).num_polysyllables_2 = 0 ∧
      (sentence_statistics_row wordlist raw).num_polysyllables_3 = 0 ∧
      (sentence_statistics_row wordlist raw).num_polysyllables_5 = 0 ∧
      (sentence_statistics_row wordlist raw).num_long_3 = 0 ∧
      (sentence_statistics_row wordlist raw).num_long_5 = 0 ∧
      (sentence_statistics_row wordlist raw).num_long_8 = 0 ∧
      (sentence_statistics_row wordlist raw).num_long_10 = 0 ∧
      (sentence_statistics_row wordlist raw).num_long_15 = 0 ∧
      (sentence_statistics_row wordlist raw).num_not_dale_chall = 0 ∧
      (sentence_statistics_row wordlist raw).flesch_reading_ease = none ∧
      (sentence_statistics_row wordlist raw).flesch_grade_level = none ∧
      (sentence_statistics_row wordlist raw).flesch_modified = none ∧
      (sentence_statistics_row wordlist raw).dale_chall_score = none := by
  have hl : splitWs (preprocessing raw).toList = [] := by
    unfold num_words at h
    exact List.length_eq_zero.mp h
  simp only [sentence_statistics_row, h, hl, count_syllables, count_monosyllables,
    count_polysyllables, count_long_words, count_dale_chall, num_words,
    flesch_reading_ease_score, flesch_grade_level_score, flesch_modified_score,
    dale_chall_score_val, Nat.cast_zero, fdiv_denom_zero, fmul_none_right,
    fmul_none_left, fsub_none_right, fsub_none_left, fadd_none_left,
    fadd_none_right, fgt_none, List.countP_nil, List.map_nil, List.sum_nil,
    List.length_nil, Bool.false_eq_true, if_false]
  simp

/-- Witness for C5 at the empty paragraph with an empty wordlist. -/
theorem c5_empty_paragraph_witness :
    num_words (preprocessing "") = 0 ∧
      ((sentence_statistics_row [] "").num_words = 0 ∧
        (sentence_statistics_row [] "").num_syllables = 0 ∧
        (sentence_statistics_row [] "").num_monosyllables = 0 ∧
        (sentence_statistics_row [] "").num_polysyllables_2 = 0 ∧
        (sentence_statistics_row [] "").num_polysyllables_3 = 0 ∧
        (sentence_statistics_row [] "").num_polysyllables_5 = 0 ∧
        (sentence_statistics_row [] "").num_long_3 = 0 ∧
        (sentence_statistics_row [] "").num_long_5 = 0 ∧
        (sentence_statistics_row [] "").num_long_8 = 0 ∧
        (sentence_statistics_row [] "").num_long_10 = 0 ∧
        (sentence_statistics_row [] "").num_long_15 = 0 ∧
        (sentence_statistics_row [] "").num_not_dale_chall = 0 ∧
        (sentence_statistics_row [] "").flesch_reading_ease = none ∧
        (sentence_statistics_row [] "").flesch_grade_level = none ∧
        (sentence_statistics_row [] "").flesch_modified = none ∧
        (sentence_statistics_row [] "").dale_chall_score = none) :=
  ⟨by decide, c5_empty_paragraph [] "" (by decide)⟩

/-- C6: a non-empty whitespace-free word of length at most 2, or one that
does not begin with a two-consonant cluster, has syllable count at least 1:
the decrement of line 97 is the only way the count can drop below the base
value 1, and it does not fire under these hypotheses. -/
theorem c6_at_least_one_syllable (w : String) (h1 : w.toList ≠ [])
    (h2 : ∀ c ∈ w.toList, isSpaceChar c = false)
    (h3 : w.toList.length ≤ 2 ∨ hasLeadingCluster w.toList = false) :
    1 ≤ count_syllables w := by
  unfold count_syllables
  rw [splitWs_single w.toList h2 h1]
  simp only [List.map_cons, List.map_nil, List.sum_cons, List.sum_nil, Nat.add_zero]
  have hcond : (hasLeadingCluster w.toList && decide (2 < w.toList.length)) = false := by
    rcases h3 with h | h
    · have hd : decide (2 < w.toList.length) = false := decide_eq_false (Nat.not_lt.mpr h)
      rw [hd, Bool.and_false]
    · rw [h, Bool.false_and]
  simp only [word_syllables, hcond, Bool.false_eq_true, if_false]
  rw [syllableLoop_eq_scan w.toList w.toList.length le_rfl 1]
  omega

/-- Witness for C6 at the concrete word `"xy"`. -/
theorem c6_at_least_one_syllable_witness :
    "xy".toList ≠ [] ∧ 1 ≤ count_syllables "xy" :=
  ⟨by decide, c6_at_least_one_syllable "xy" (by decide) (by decide) (by decide)⟩

/-- C7: on the example input the pipeline counts one comma on the raw text,
normalizes to exactly `"this is test sentence number with a comma "`
(lowercased, digit removed, hyphen to space, punctuation removed,
whitespace runs collapsed, one trailing space kept), and counts 8 words. -/
theorem c7_example_normalization :
    num_comma example_input = 1 ∧
      preprocessing example_input = "this is test sentence number with a comma " ∧
      num_words (preprocessing example_input) = 8 := by
  decide

/-- C8: on every normalized paragraph, counting word-constituent characters
over the whole string (`num_letters`, line 31) agrees with summing the
lengths of its whitespace tokens, because normalization leaves only word
characters and spaces. -/
theorem c8_num_letters_eq_token_length_sum (raw : String) :
    num_letters (preprocessing raw)
      = ((splitWs (preprocessing raw).toList).map List.length).sum := by
  rw [splitWs_len_sum]
  unfold num_letters
  apply countP_congr_mem
  intro c hc
  rcases preprocessing_chars raw c hc with hw | hsp
  · cases hs : isSpaceChar c with
    | false => simp [hw, hs]
    | true =>
      rw [space_not_word c hs] at hw
      exact absurd hw (by simp)
  · subst hsp
    decide

/-- `count_polysyllables` is antitone in its threshold. -/
lemma count_polysyllables_antitone (p : String) (t1 t2 : Nat) (h : t1 ≤ t2) :
    count_polysyllables p t2 ≤ count_polysyllables p t1 := by
  unfold count_polysyllables
  apply countP_imp_le
  intro a ha
  exact decide_eq_true (le_trans h (of_decide_eq_true ha))

/-- `count_long_words` is antitone in its threshold. -/
lemma count_long_words_antitone (p : String) (t1 t2 : Nat) (h : t1 ≤ t2) :
    count_long_words p t2 ≤ count_long_words p t1 := by
  unfold count_long_words
  apply countP_imp_le
  intro a ha
  exact decide_eq_true (le_trans h (of_decide_eq_true ha))

/-- C9: the threshold-parameterized counters are antitone in the threshold
along the chains the pipeline uses: polysyllables for 5, 3, 2 and long
words for 15, 10, 8, 5, 3. -/
theorem c9_threshold_antitone (p : String) :
    (count_polysyllables p 5 ≤ count_polysyllables p 3 ∧
      count_polysyllables p 3 ≤ count_polysyllables p 2) ∧
      count_long_words p 15 ≤ count_long_words p 10 ∧
      count_long_words p 10 ≤ count_long_words p 8 ∧
      count_long_words p 8 ≤ count_long_words p 5 ∧
      count_long_words p 5 ≤ count_long_words p 3 :=
  ⟨⟨count_polysyllables_antitone p 3 5 (by omega),
      count_polysyllables_antitone p 2 3 (by omega)⟩,
    count_long_words_antitone p 10 15 (by omega),
    count_long_words_antitone p 8 10 (by omega),
    count_long_words_antitone p 5 8 (by omega),
    count_long_words_antitone p 3 5 (by omega)⟩

/-- C10: every per-word counter adds at most one per token, so each is
bounded by the token count `num_words`, for every threshold and wordlist. -/
theorem c10_counters_le_num_words (p : String) (t : Nat) (wordlist : List String) :
    count_monosyllables p ≤ num_words p ∧
      count_polysyllables p t ≤ num_words p ∧
      count_long_words p t ≤ num_words p ∧
      count_dale_chall wordlist p ≤ num_words p := by
  unfold count_monosyllables count_polysyllables count_long_words count_dale_chall num_words
  exact ⟨List.countP_le_length _, List.countP_le_length _,
    List.countP_le_length _, List.countP_le_length _⟩
